import Mathlib

/-!
Shallow embedding of the beck go-coverage-analyzer repository, covering the
coverage-profile parser (pkg/models/models.go), the coverage mapper
(pkg/coverage/analyzer.go), the test-data generator and template engine
(internal/generator/templates.go), the test generator and mock writer, and
the validation pipeline.  Pure Go functions become Lean functions; machine
ints become Int (Go int / int64 on 64-bit platforms, with the explicit
overflow bound where the source checks it); fallible code returns
Option / Except.  Strings are manipulated through their character lists so
every definition evaluates by kernel reduction.
-/

namespace Beck

/-- Character-list view of a Go string slice of bytes (all inputs of interest
are ASCII, so byte indices and character indices coincide). -/
def chars (s : String) : List Char := s.data

/-- Rebuild a string from characters. -/
def ofChars (l : List Char) : String := ⟨l⟩

/-- Model of strings.TrimSpace: drop leading and trailing whitespace. -/
def goTrim (s : String) : String :=
  ofChars (((s.data.dropWhile Char.isWhitespace).reverse.dropWhile Char.isWhitespace).reverse)

/-- Model of strings.HasPrefix. -/
def goStartsWith (s p : String) : Bool := p.data.isPrefixOf s.data

/-- Model of strings.TrimPrefix for the case where the prefix is known to be
present: drop its characters. -/
def goDropPrefix (s p : String) : String := ofChars (s.data.drop p.data.length)

/-- Accumulating splitter for strings.Fields: groups maximal runs of
non-whitespace characters. -/
def fieldsAux : List Char → List Char → List String
  | acc, [] => if acc = [] then [] else [ofChars acc.reverse]
  | acc, c :: rest =>
    if c.isWhitespace then
      if acc = [] then fieldsAux [] rest
      else ofChars acc.reverse :: fieldsAux [] rest
    else fieldsAux (c :: acc) rest

/-- Model of strings.Fields: split around runs of whitespace, no empty
fields. -/
def goFields (s : String) : List String := fieldsAux [] s.data

/-- Model of strings.Split with a one-character separator: returns every
piece, including empty ones. -/
def splitChars (sep : Char) : List Char → List (List Char)
  | [] => [[]]
  | c :: rest =>
    let r := splitChars sep rest
    if c = sep then [] :: r
    else
      match r with
      | [] => [[c]]
      | h :: t => (c :: h) :: t

/-- Model of strings.Join with a one-character separator. -/
def joinWithChar (sep : Char) : List (List Char) → List Char
  | [] => []
  | [p] => p
  | p :: rest => p ++ sep :: joinWithChar sep rest

/-- Split a string at the last occurrence of a character, as
strings.LastIndex followed by the two Go slice expressions; none when the
character does not occur. -/
def splitAtLastChar (s : String) (c : Char) : Option (String × String) :=
  let l := s.data
  match l.reverse.indexOf? c with
  | none => none
  | some k =>
    let i := l.length - 1 - k
    some (ofChars (l.take i), ofChars (l.drop (i + 1)))

/-- Split a string at the first occurrence of a character, as strings.Index
followed by the two Go slice expressions; none when absent. -/
def splitAtFirstChar (s : String) (c : Char) : Option (String × String) :=
  let l := s.data
  match l.indexOf? c with
  | none => none
  | some i => some (ofChars (l.take i), ofChars (l.drop (i + 1)))

/-- Model of strconv.Atoi / strconv.ParseInt(s, 10, 64): an optional sign
followed by at least one digit, rejecting values outside the int64 range. -/
def goAtoi (s : String) : Option Int :=
  match s.data with
  | [] => none
  | c :: rest =>
    let (sign, digits) : Int × List Char :=
      if c = '-' then (-1, rest) else if c = '+' then (1, rest) else (1, c :: rest)
    if digits = [] then none
    else if digits.all Char.isDigit then
      let n : Nat := digits.foldl (fun acc d => acc * 10 + (d.toNat - '0'.toNat)) 0
      let v : Int := sign * (n : Int)
      if -(2 ^ 63) ≤ v ∧ v < 2 ^ 63 then some v else none
    else none

/-- Model of strings.Contains: some rotation of the haystack starts with the
needle. -/
def containsSubstr (s pat : String) : Bool :=
  (List.range (s.data.length + 1)).any (fun i => pat.data.isPrefixOf (s.data.drop i))

/-- Model of strings.ToLower for the ASCII range used by the generator. -/
def goToLower (s : String) : String := ofChars (s.data.map Char.toLower)

/-- ProfileBlock from pkg/models: one parsed line of a coverage profile.
Line/column fields are Go int, Count is int64. -/
structure ProfileBlock where
  fileName : String
  startLine : Int
  startCol : Int
  endLine : Int
  endCol : Int
  numStmts : Int
  count : Int
  deriving Repr, DecidableEq

/-- CoverageProfile from pkg/models restricted to the fields the mapper
reads: the mode string and the ordered block list. -/
structure CoverageProfile where
  mode : String
  blocks : List ProfileBlock
  deriving Repr, DecidableEq

/-- parsePosition from pkg/models/models.go: split "line.column" at the first
dot and Atoi both halves. -/
def parsePosition (pos : String) : Option (Int × Int) :=
  match splitAtFirstChar pos '.' with
  | none => none
  | some (a, b) =>
    match goAtoi a, goAtoi b with
    | some line, some col => some (line, col)
    | _, _ => none

/-- parseProfileLine from pkg/models/models.go: exactly three
whitespace-separated fields; the first splits at its last colon into file
name and positions, the positions split at the first comma, each side parses
as line.column; the remaining fields are the statement and execution
counts. -/
def parseProfileLine (line : String) : Option ProfileBlock :=
  match goFields line with
  | [filePos, stmtsStr, countStr] =>
    match splitAtLastChar filePos ':' with
    | none => none
    | some (fileName, positions) =>
      match splitAtFirstChar positions ',' with
      | none => none
      | some (startPos, endPos) =>
        match parsePosition startPos, parsePosition endPos,
              goAtoi stmtsStr, goAtoi countStr with
        | some (sl, sc), some (el, ec), some numStmts, some count =>
          some ⟨fileName, sl, sc, el, ec, numStmts, count⟩
        | _, _, _, _ => none
  | _ => none

/-- Loop body of ParseProfile from pkg/models/models.go, over the list of
physical lines.  lineNum counts every scanned line; line 1 is consumed as
the mode header when it carries the "mode: " prefix; blank lines and lines
starting with '#' are skipped; any other line must parse as a block or the
whole parse fails carrying that line's number. -/
def parseProfileAux (mode : String) (blocks : List ProfileBlock) (lineNum : Nat) :
    List String → Except Nat (String × List ProfileBlock)
  | [] => .ok (mode, blocks)
  | raw :: rest =>
    let line := goTrim raw
    let n := lineNum + 1
    if n = 1 ∧ goStartsWith line "mode: " then
      parseProfileAux (goDropPrefix line "mode: ") blocks n rest
    else if line = "" ∨ goStartsWith line "#" then
      parseProfileAux mode blocks n rest
    else
      match parseProfileLine line with
      | none => .error n
      | some b => parseProfileAux mode (blocks ++ [b]) n rest

/-- ParseProfile from pkg/models/models.go on the file's lines: an error is
reported as the 1-based number of the malformed line. -/
def parseProfile (lines : List String) : Except Nat CoverageProfile :=
  (parseProfileAux "" [] 0 lines).map (fun p => ⟨p.1, p.2⟩)

/-- validateBlock from pkg/models/models.go: nonempty file name, positive
line numbers, ordered span, ordered columns on a single-line span, positive
statement count, nonnegative execution count. -/
def validateBlock (b : ProfileBlock) : Bool :=
  b.fileName ≠ "" && b.startLine > 0 && b.endLine > 0 &&
  b.startLine ≤ b.endLine &&
  !(b.startLine = b.endLine && b.startCol > b.endCol) &&
  b.numStmts > 0 && b.count ≥ 0

/-- Block from pkg/models: the internal form produced by ConvertToBlocks. -/
structure Block where
  startLine : Int
  startCol : Int
  endLine : Int
  endCol : Int
  numStmts : Int
  count : Int
  isCovered : Bool
  deriving Repr, DecidableEq

/-- ConvertToBlocks from pkg/models/models.go: one internal block per profile
block, isCovered iff the execution count is positive. -/
def convertToBlocks (profileBlocks : List ProfileBlock) : List Block :=
  profileBlocks.map (fun pb =>
    ⟨pb.startLine, pb.startCol, pb.endLine, pb.endCol, pb.numStmts, pb.count, pb.count > 0⟩)

/-- Unix filepath.Base: empty path gives ".", trailing slashes are stripped,
the segment after the last remaining slash is returned, and an all-slash
path gives "/". -/
def filepathBase (path : String) : String :=
  if path = "" then "."
  else
    let l := (path.data.reverse.dropWhile (· = '/')).reverse
    let l2 := (l.reverse.takeWhile (· ≠ '/')).reverse
    if l2 = [] then "/" else ofChars l2

/-- generatePathVariants from pkg/coverage/analyzer.go: the path itself, then
the bare filename when it differs, then (when the path contains a slash) the
suffix obtained by dropping the first i slash-separated segments for each
i from 1 to the segment count minus one. -/
def generatePathVariants (path : String) : List String :=
  let variants := [path]
  let filename := filepathBase path
  let variants := if filename ≠ path then variants ++ [filename] else variants
  if path.data.contains '/' then
    let parts := splitChars '/' path.data
    if parts.length > 1 then
      variants ++ ((List.range parts.length).drop 1).map
        (fun i => ofChars (joinWithChar '/' (parts.drop i)))
    else variants
  else variants

/-- Entry of the fileBlocks map built by applyCoverageData: iterating the
profile blocks in order, each block is appended under the key once per
occurrence of the key among that block's own path variants (so a duplicated
variant appends the block twice). -/
def blocksForKey (blocks : List ProfileBlock) (key : String) : List ProfileBlock :=
  blocks.foldl
    (fun acc b =>
      acc ++ ((generatePathVariants b.fileName).filter (fun v => v = key)).map (fun _ => b))
    []

/-- Probe loop of applyCoverageData: the first path variant of the model
file that is a key of the fileBlocks map (a key exists exactly when some
block was appended under it, so its entry is nonempty). -/
def firstMatchingVariant (blocks : List ProfileBlock) (path : String) : Option String :=
  (generatePathVariants path).find? (fun v => !(blocksForKey blocks v).isEmpty)

/-- Blocks attributed to a model file by applyCoverageData: the entry of the
first matching variant, empty when no variant matches. -/
def matchBlocks (blocks : List ProfileBlock) (path : String) : List ProfileBlock :=
  match firstMatchingVariant blocks path with
  | none => []
  | some v => blocksForKey blocks v

/-- Param from pkg/models restricted to the generator-relevant fields. -/
structure GoParam where
  name : String
  type : String
  deriving Repr, DecidableEq

/-- Function from pkg/models restricted to the fields the mapper and the
generator read.  Coverage is float64 in Go; the values proved about here
(0 and 100, and ratios of equal integers) are exact in IEEE double, so ℚ is
a faithful carrier for them. -/
structure GoFunction where
  name : String
  startLine : Int
  endLine : Int
  coverage : ℚ
  isCovered : Bool
  isTestable : Bool
  complexity : Int
  hasErrorReturn : Bool
  parameters : List GoParam
  deriving Repr, DecidableEq

/-- File from pkg/models restricted to the fields the mapper writes. -/
structure GoFile where
  path : String
  functions : List GoFunction
  coverageBlocks : List Block
  coverage : ℚ
  lineCoverage : ℚ
  functionCoverage : ℚ
  coveredLines : Int
  uncoveredLines : Int
  deriving Repr, DecidableEq

/-- Package from pkg/models restricted to its file list (map values in
iteration order). -/
structure GoPackage where
  name : String
  files : List GoFile
  deriving Repr, DecidableEq

/-- Containment test of calculateFunctionCoverage: the block's span lies
fully inside the function's line span. -/
def containedIn (f : GoFunction) (b : ProfileBlock) : Bool :=
  b.startLine ≥ f.startLine && b.endLine ≤ f.endLine

/-- totalStmts accumulator of calculateFunctionCoverage: sum of the
statement counts of the contained blocks. -/
def containedStmts (f : GoFunction) : List ProfileBlock → Int
  | [] => 0
  | b :: rest => (if containedIn f b then b.numStmts else 0) + containedStmts f rest

/-- coveredStmts accumulator of calculateFunctionCoverage: sum of the
statement counts of the contained blocks with positive execution count. -/
def coveredContainedStmts (f : GoFunction) : List ProfileBlock → Int
  | [] => 0
  | b :: rest =>
    (if containedIn f b && b.count > 0 then b.numStmts else 0) + coveredContainedStmts f rest

/-- calculateFunctionCoverage from pkg/coverage/analyzer.go: zero total
statements yields (0.0, false); otherwise the covered fraction times 100
and covered iff some contained statement executed. -/
def calculateFunctionCoverage (f : GoFunction) (blocks : List ProfileBlock) : ℚ × Bool :=
  let totalStmts := containedStmts f blocks
  let coveredStmts := coveredContainedStmts f blocks
  if totalStmts = 0 then (0, false)
  else ((coveredStmts : ℚ) / (totalStmts : ℚ) * 100, coveredStmts > 0)

/-- Statement-count sum over internal blocks (totalStmts loop of
calculateFileCoverage). -/
def blockStmts : List Block → Int
  | [] => 0
  | b :: rest => b.numStmts + blockStmts rest

/-- Covered statement-count sum over internal blocks (coveredStmts loop of
calculateFileCoverage). -/
def coveredBlockStmts : List Block → Int
  | [] => 0
  | b :: rest => (if b.isCovered then b.numStmts else 0) + coveredBlockStmts rest

/-- calculateFileCoverage from pkg/coverage/analyzer.go: sums statement
counts over the file's coverage blocks, counts covered functions, updates
the percentage fields only when their denominators are positive, and always
writes CoveredLines and UncoveredLines. -/
def calculateFileCoverage (file : GoFile) : GoFile :=
  let totalStmts := blockStmts file.coverageBlocks
  let coveredStmts := coveredBlockStmts file.coverageBlocks
  let coveredFunctions : Int := ((file.functions.filter (fun fn => fn.isCovered)).length : Int)
  let cov := if totalStmts > 0 then (coveredStmts : ℚ) / (totalStmts : ℚ) * 100 else file.coverage
  { file with
    coverage := cov
    lineCoverage := if totalStmts > 0 then cov else file.lineCoverage
    functionCoverage :=
      if file.functions.length > 0 then
        (coveredFunctions : ℚ) / (file.functions.length : ℚ) * 100
      else file.functionCoverage
    coveredLines := coveredStmts
    uncoveredLines := totalStmts - coveredStmts }

/-- Per-file body of applyCoverageData from pkg/coverage/analyzer.go: match
the file's path variants against the block map; with no match the file is
left untouched; otherwise its coverage blocks are converted, every function
gets its coverage, and the file statistics are recomputed. -/
def applyCoverageToFile (profileBlocks : List ProfileBlock) (file : GoFile) : GoFile :=
  let blocks := matchBlocks profileBlocks file.path
  if blocks = [] then file
  else
    let file := { file with coverageBlocks := convertToBlocks blocks }
    let file := { file with
      functions := file.functions.map (fun fn =>
        { fn with
          coverage := (calculateFunctionCoverage fn blocks).1
          isCovered := (calculateFunctionCoverage fn blocks).2 }) }
    calculateFileCoverage file

/-- applyCoverageData over all packages and files (package-level statistic
aggregation is not needed by the claims and is omitted). -/
def applyCoverageData (packages : List GoPackage) (profile : CoverageProfile) : List GoPackage :=
  packages.map (fun pkg => { pkg with files := pkg.files.map (applyCoverageToFile profile.blocks) })

/-- Uncovered-function collection loop of buildAnalysisResult: every
function of every file of every package with IsTestable and not IsCovered,
in iteration order. -/
def collectUncovered (packages : List GoPackage) : List GoFunction :=
  ((packages.flatMap (fun pkg => pkg.files)).flatMap (fun file => file.functions)).filter
    (fun fn => fn.isTestable && !fn.isCovered)

/-- Descending-complexity comparison used by the sort.Slice call of
buildAnalysisResult. -/
def complexityGe (a b : GoFunction) : Prop := b.complexity ≤ a.complexity

instance : DecidableRel complexityGe :=
  fun a b => inferInstanceAs (Decidable (b.complexity ≤ a.complexity))

instance : IsTotal GoFunction complexityGe :=
  ⟨fun a b => le_total b.complexity a.complexity⟩

instance : IsTrans GoFunction complexityGe :=
  ⟨fun _ _ _ h1 h2 => le_trans h2 h1⟩

/-- Sort of buildAnalysisResult: sort.Slice with less = strictly greater
complexity guarantees a permutation of the input that is non-increasing in
complexity; insertionSort realizes that contract. -/
def sortByComplexityDesc (fns : List GoFunction) : List GoFunction :=
  List.insertionSort complexityGe fns

/-- UncoveredFunctions list produced by buildAnalysisResult from
pkg/coverage/analyzer.go: collect, then sort by complexity descending. -/
def buildUncoveredFunctions (packages : List GoPackage) : List GoFunction :=
  sortByComplexityDesc (collectUncovered packages)

/-- GenerationStrategy from internal/generator/templates.go. -/
inductive GenerationStrategy where
  | positive
  | negative
  | edge
  | random
  | zero
  deriving Repr, DecidableEq

/-- Go interface-typed test values as the generator produces and the
error heuristics inspect them. -/
inductive GoValue where
  | intV (n : Int)
  | floatV (q : ℚ)
  | strV (s : String)
  | boolV (b : Bool)
  | nilV
  deriving Repr, DecidableEq

/-- Pending outputs of the generator's seeded rand.Rand, consumed left to
right; Intn n reduces the next output into range. -/
def randIntn (rng : List Nat) (n : Nat) : Nat × List Nat :=
  match rng with
  | [] => (0, [])
  | x :: rest => (x % n, rest)

/-- Quoted literal text fmt.Sprintf("\x22%s\x22", value). -/
def quoteStr (s : String) : String := "\"" ++ s ++ "\""

/-- Character set of generateRandomString. -/
def randomCharset : List Char :=
  "abcdefghijklmnopqrstuvwxyzABCDEFGHIJKLMNOPQRSTUVWXYZ0123456789".data

/-- generateRandomString from internal/generator/templates.go: length
characters drawn from the charset. -/
def generateRandomString (length : Nat) (rng : List Nat) : String × List Nat :=
  match length with
  | 0 => ("", rng)
  | n + 1 =>
    let (i, rng) := randIntn rng randomCharset.length
    let (rest, rng) := generateRandomString n rng
    (ofChars [randomCharset.getD i 'a'] ++ rest, rng)

/-- generateStringValue from internal/generator/templates.go: positive,
negative and edge strategies draw one element of a fixed list through the
generator's rand; zero deterministically yields the empty string; random
builds a fresh string of random length 1..50. -/
def generateStringValue (rng : List Nat) (strategy : GenerationStrategy) :
    (GoValue × String) × List Nat :=
  match strategy with
  | .positive =>
    let values := ["test", "hello", "example", "valid_input", "sample_data"]
    let (i, rng) := randIntn rng values.length
    let v := values.getD i ""
    ((.strV v, quoteStr v), rng)
  | .negative =>
    let values := ["", "null", "undefined", "<script>", "'; DROP TABLE;", "../../etc/passwd"]
    let (i, rng) := randIntn rng values.length
    let v := values.getD i ""
    ((.strV v, quoteStr v), rng)
  | .edge =>
    let values := ["", " ", "\n", "\t", ofChars [Char.ofNat 0], ofChars (List.replicate 1000 'a')]
    let (i, rng) := randIntn rng values.length
    let v := values.getD i ""
    ((.strV v, quoteStr v), rng)
  | .zero => ((.strV "", "\"\""), rng)
  | .random =>
    let (l, rng) := randIntn rng 50
    let (v, rng) := generateRandomString (l + 1) rng
    ((.strV v, quoteStr v), rng)

/-- getZeroValue from internal/generator/templates.go. -/
def getZeroValue (t : String) : String :=
  match t with
  | "string" => "\"\""
  | "int" | "int32" | "int64" | "int8" | "int16" => "0"
  | "uint" | "uint32" | "uint64" | "uint8" | "uint16" => "0"
  | "float32" | "float64" => "0.0"
  | "bool" => "false"
  | "byte" => "0"
  | "rune" => "0"
  | _ =>
    if goStartsWith t "[]" || goStartsWith t "map[" || goStartsWith t "*" then "nil"
    else t ++ "{}"

/-- hasProblematicInputs from internal/generator/templates.go: a
division-named function with a zero-valued divisor- or denominator-named
integer or float input, or any nil input. -/
def hasProblematicInputs (f : GoFunction) (inputs : List (String × GoValue)) : Bool :=
  let funcName := goToLower f.name
  (containsSubstr funcName "div" &&
    inputs.any (fun nv =>
      (containsSubstr (goToLower nv.1) "divisor" ||
        containsSubstr (goToLower nv.1) "denominator") &&
      (match nv.2 with
       | .intV n => n = 0
       | .floatV q => q = 0
       | _ => false))) ||
  inputs.any (fun nv => nv.2 = .nilV)

/-- shouldExpectError from internal/generator/templates.go: false without an
error result; the negative strategy always expects an error; the edge
strategy expects one exactly when the inputs look problematic. -/
def shouldExpectError (f : GoFunction) (strategy : GenerationStrategy)
    (inputs : List (String × GoValue)) : Bool :=
  if !f.hasErrorReturn then false
  else
    match strategy with
    | .negative => true
    | .edge => hasProblematicInputs f inputs
    | _ => false

/-- TestCaseData from internal/generator/templates.go restricted to the
fields generateErrorCases writes. -/
structure TestCaseData where
  name : String
  description : String
  expectError : Bool
  errorMessage : String
  deriving Repr, DecidableEq

/-- generateErrorCases from internal/generator/templates.go: a
division-by-zero case for function names containing "divide", an
invalid-input case for names containing "parse" or "convert", both with
ExpectError true. -/
def generateErrorCases (f : GoFunction) : List TestCaseData :=
  (if containsSubstr (goToLower f.name) "divide" then
    [⟨"division_by_zero", "Test division by zero error", true, "division by zero"⟩]
  else []) ++
  (if containsSubstr (goToLower f.name) "parse" || containsSubstr (goToLower f.name) "convert" then
    [⟨"invalid_input", "Test with invalid input", true, "invalid"⟩]
  else [])

/-- Outcomes of the three effectful validation stages (each runs external
tools; their verdicts are the pipeline's only inputs of interest). -/
structure StageOutcomes where
  synOk : Bool
  buildOk : Bool
  execOk : Bool
  deriving Repr, DecidableEq

/-- Trace of a ValidateTests run: the final Valid flag and which stages were
reached. -/
structure PipelineTrace where
  valid : Bool
  ranBuild : Bool
  ranExec : Bool
  ranQuality : Bool
  deriving Repr, DecidableEq

/-- Control flow of ValidateTests from the generator's validator: a syntax
failure returns before the build stage, a build failure returns before the
execution stage, and the quality stage runs after execution whatever the
execution verdict was. -/
def validateTests (o : StageOutcomes) : PipelineTrace :=
  if !o.synOk then ⟨false, false, false, false⟩
  else if !o.buildOk then ⟨false, true, false, false⟩
  else ⟨o.execOk, true, true, true⟩

/-- Options from the test generator restricted to the fields
generateTestFile reads. -/
structure GenOptions where
  dryRun : Bool
  overwrite : Bool
  deriving Repr, DecidableEq

/-- GeneratedFile from pkg/models restricted to the fields generateTestFile
writes. -/
structure GeneratedFile where
  path : String
  testsGenerated : Nat
  size : Nat
  created : Bool
  modified : Bool
  deriving Repr, DecidableEq

/-- One filesystem write (path and content). -/
structure FsWrite where
  path : String
  content : String
  deriving Repr, DecidableEq

instance {ε α : Type} [DecidableEq ε] [DecidableEq α] : DecidableEq (Except ε α) := fun a b =>
  match a, b with
  | .error x, .error y =>
    if h : x = y then .isTrue (congrArg Except.error h)
    else .isFalse (fun hc => h (Except.error.inj hc))
  | .ok x, .ok y =>
    if h : x = y then .isTrue (congrArg Except.ok h)
    else .isFalse (fun hc => h (Except.ok.inj hc))
  | .error _, .ok _ => .isFalse (fun hc => Except.noConfusion hc)
  | .ok _, .error _ => .isFalse (fun hc => Except.noConfusion hc)

/-- Inputs of one generateTestFile call that the surrounding filesystem and
the content generator determine: the target path, whether a test file is
already there, and the outcome of generateTestFileContent (content plus
the generated test-case names). -/
structure FileGenInput where
  testFilePath : String
  alreadyThere : Bool
  contentResult : Except String (String × List String)
  deriving Repr, DecidableEq

/-- generateTestFile from the test generator as a state-passing function:
the returned write list is the filesystem effect.  An existing file without
Overwrite is skipped with no result; a content-generation failure is an
error; otherwise the file is written unless DryRun is set, and the reported
GeneratedFile counts the generated test cases either way. -/
def generateTestFile (opts : GenOptions) (g : FileGenInput) :
    Except String (Option GeneratedFile) × List FsWrite :=
  if g.alreadyThere && !opts.overwrite then (.ok none, [])
  else
    match g.contentResult with
    | .error e => (.error e, [])
    | .ok (testContent, testCases) =>
      let writes := if !opts.dryRun then [⟨g.testFilePath, testContent⟩] else []
      (.ok (some
        ⟨g.testFilePath, testCases.length, testContent.length, !g.alreadyThere, g.alreadyThere⟩),
       writes)

/-- Aggregation loop of generateTests: per-file failures are recorded and
skipped, successful files add their test counts; the write lists
concatenate in order. -/
def generateTests (opts : GenOptions) : List FileGenInput → Nat × List FsWrite
  | [] => (0, [])
  | g :: rest =>
    let (r, w) := generateTestFile opts g
    let (n, ws) := generateTests opts rest
    match r with
    | .ok (some gf) => (gf.testsGenerated + n, w ++ ws)
    | _ => (n, w ++ ws)

/-- WriteMocks from the mock generator: dry run writes nothing; otherwise
one write per mock at its path (directory creation elided — it writes no
file content). -/
def writeMocks (mocks : List (String × String)) (dryRun : Bool) : List FsWrite :=
  if dryRun then []
  else mocks.map (fun m => ⟨m.1, m.2⟩)

/-- Statement-count sum over profile blocks, for relating file totals to the
parsed profile. -/
def profileStmts : List ProfileBlock → Int
  | [] => 0
  | b :: rest => b.numStmts + profileStmts rest

/-- Fixture: a profile block reported under pkg/sub/file.go with 5
statements, unexecuted. -/
def exB1 : ProfileBlock := ⟨"pkg/sub/file.go", 1, 1, 2, 2, 5, 0⟩

/-- Fixture: a profile block reported under other/file.go with 7 statements,
executed once. -/
def exB2 : ProfileBlock := ⟨"other/file.go", 3, 1, 4, 2, 7, 1⟩

/-- Fixture: a model file whose path is the bare name file.go, with no
functions and zeroed statistics. -/
def exFile : GoFile := ⟨"file.go", [], [], 0, 0, 0, 0, 0⟩

/-- Fixture: a testable function spanning lines 10 to 20 with zeroed
coverage. -/
def exFunc : GoFunction := ⟨"Span10To20", 10, 20, 0, false, true, 1, false, []⟩

/-- Fixture: a block entirely outside exFunc's span, executed 5 times. -/
def exOutsideBlock : ProfileBlock := ⟨"f.go", 1, 1, 2, 2, 3, 5⟩

/-- Fixture: a block contained in exFunc's span with zero executions. -/
def exZeroCountContained : ProfileBlock := ⟨"f.go", 11, 1, 12, 2, 3, 0⟩

/-- Fixture: a well-formed block contained in exFunc's span, executed
once. -/
def exContainedCovered : ProfileBlock := ⟨"f.go", 11, 1, 12, 2, 2, 1⟩

/-- Fixture: an exported divide-style function with an error result and a
divisor-named parameter. -/
def exDivideFunc : GoFunction :=
  ⟨"SafeDivide", 1, 10, 0, false, true, 1, true, [⟨"divisor", "int"⟩]⟩

/-- Fixture: a testable uncovered function of complexity 3. -/
def exUncov : GoFunction := ⟨"Uncov", 1, 5, 0, false, true, 3, false, []⟩

/-- Fixture: a testable covered function of complexity 2. -/
def exCov : GoFunction := ⟨"Cov", 6, 9, 100, true, true, 2, false, []⟩

/-- Fixture: a one-file package holding exUncov and exCov. -/
def exPkg : GoPackage := ⟨"p", [⟨"a.go", [exUncov, exCov], [], 0, 0, 0, 0, 0⟩]⟩

/-- A physical line (1-based number n) that ParseProfile actually hands to
parseProfileLine: not the line-1 mode header, not blank after trimming, not
a '#' comment. -/
def activeLine (n : Nat) (raw : String) : Bool :=
  let line := goTrim raw
  !(decide (n = 1 ∧ goStartsWith line "mode: " = true)) &&
  !(decide (line = "" ∨ goStartsWith line "#" = true))

/-- All active lines numbered from k+1 onwards parse as profile blocks. -/
def linesOk : Nat → List String → Prop
  | _, [] => True
  | k, raw :: rest =>
    (activeLine (k + 1) raw = true → (parseProfileLine (goTrim raw)).isSome = true) ∧
    linesOk (k + 1) rest

/-! Helper lemmas shared by the claim theorems. -/

theorem find?_split {α : Type} (p : α → Bool) :
    ∀ (l : List α) (a : α), l.find? p = some a →
      ∃ l1 l2, l = l1 ++ a :: l2 ∧ p a = true ∧ ∀ w ∈ l1, p w = false := by
  intro l
  induction l with
  | nil => intro a h; simp [List.find?] at h
  | cons x xs ih =>
    intro a h
    rw [List.find?] at h
    cases hx : p x with
    | true =>
      rw [hx] at h
      simp only [Option.some.injEq] at h
      exact ⟨[], xs, by simp [h ▸ hx, h]⟩
    | false =>
      rw [hx] at h
      obtain ⟨l1, l2, hsplit, hpa, hall⟩ := ih a h
      exact ⟨x :: l1, l2, by simp [hsplit], hpa, by
        intro w hw
        rcases List.mem_cons.mp hw with hw | hw
        · exact hw ▸ hx
        · exact hall w hw⟩

theorem containedStmts_eq_zero (f : GoFunction) :
    ∀ blocks : List ProfileBlock, (∀ b ∈ blocks, containedIn f b = false) →
      containedStmts f blocks = 0 := by
  intro blocks
  induction blocks with
  | nil => intro _; rfl
  | cons b rest ih =>
    intro h
    have hb : containedIn f b = false := h b (List.mem_cons_self b rest)
    have hr := ih (fun x hx => h x (List.mem_cons_of_mem b hx))
    simp [containedStmts, hb, hr]

theorem containedStmts_nonneg (f : GoFunction) :
    ∀ blocks : List ProfileBlock,
      (∀ b ∈ blocks, containedIn f b = true → 0 ≤ b.numStmts) →
      0 ≤ containedStmts f blocks := by
  intro blocks
  induction blocks with
  | nil => intro _; simp [containedStmts]
  | cons b rest ih =>
    intro h
    have hr := ih (fun x hx hc => h x (List.mem_cons_of_mem b hx) hc)
    by_cases hb : containedIn f b = true
    · have := h b (List.mem_cons_self b rest) hb
      simp only [containedStmts, hb, if_true]
      omega
    · simp only [containedStmts, Bool.not_eq_true] at hb ⊢
      rw [hb]
      simpa using hr

theorem containedStmts_pos (f : GoFunction) (blocks : List ProfileBlock)
    (hpos : ∀ b ∈ blocks, containedIn f b = true → 0 < b.numStmts)
    (hex : ∃ b ∈ blocks, containedIn f b = true) :
    0 < containedStmts f blocks := by
  induction blocks with
  | nil => simp at hex
  | cons b rest ih =>
    by_cases hb : containedIn f b = true
    · have h1 : 0 < b.numStmts := hpos b (List.mem_cons_self b rest) hb
      have h2 : 0 ≤ containedStmts f rest :=
        containedStmts_nonneg f rest
          (fun x hx hc => le_of_lt (hpos x (List.mem_cons_of_mem b hx) hc))
      simp only [containedStmts, hb, if_true]
      omega
    · obtain ⟨x, hx, hc⟩ := hex
      rcases List.mem_cons.mp hx with hxe | hxm
      · exact absurd (hxe ▸ hc) hb
      · have := ih (fun y hy hyc => hpos y (List.mem_cons_of_mem b hy) hyc) ⟨x, hxm, hc⟩
        simp only [Bool.not_eq_true] at hb
        simp only [containedStmts, hb]
        simpa using this

theorem coveredContained_eq_total (f : GoFunction) :
    ∀ blocks : List ProfileBlock,
      (∀ b ∈ blocks, containedIn f b = true → 0 < b.count) →
      coveredContainedStmts f blocks = containedStmts f blocks := by
  intro blocks
  induction blocks with
  | nil => intro _; rfl
  | cons b rest ih =>
    intro h
    have hr := ih (fun x hx hc => h x (List.mem_cons_of_mem b hx) hc)
    by_cases hb : containedIn f b = true
    · have hcount : 0 < b.count := h b (List.mem_cons_self b rest) hb
      have : (b.count > 0) = True := by simp [hcount]
      simp [coveredContainedStmts, containedStmts, hb, hcount, hr]
    · simp only [Bool.not_eq_true] at hb
      simp [coveredContainedStmts, containedStmts, hb, hr]

theorem coveredContained_eq_zero (f : GoFunction) :
    ∀ blocks : List ProfileBlock,
      (∀ b ∈ blocks, containedIn f b = true → b.count = 0) →
      coveredContainedStmts f blocks = 0 := by
  intro blocks
  induction blocks with
  | nil => intro _; rfl
  | cons b rest ih =>
    intro h
    have hr := ih (fun x hx hc => h x (List.mem_cons_of_mem b hx) hc)
    by_cases hb : containedIn f b = true
    · have hcount : b.count = 0 := h b (List.mem_cons_self b rest) hb
      simp [coveredContainedStmts, hb, hcount, hr]
    · simp only [Bool.not_eq_true] at hb
      simp [coveredContainedStmts, hb, hr]

theorem validateBlock_stmts_count {b : ProfileBlock} (h : validateBlock b = true) :
    0 < b.numStmts ∧ 0 ≤ b.count := by
  simp only [validateBlock, Bool.and_eq_true, decide_eq_true_eq] at h
  exact ⟨h.1.2, h.2⟩

theorem blockStmts_convert :
    ∀ l : List ProfileBlock, blockStmts (convertToBlocks l) = profileStmts l := by
  intro l
  induction l with
  | nil => rfl
  | cons b rest ih => simp [convertToBlocks, blockStmts, profileStmts] at ih ⊢; omega

theorem generateTestFile_fst_dryRun_indep (d1 d2 ov : Bool) (g : FileGenInput) :
    (generateTestFile ⟨d1, ov⟩ g).1 = (generateTestFile ⟨d2, ov⟩ g).1 := by
  unfold generateTestFile
  cases g.alreadyThere && !ov <;> cases g.contentResult <;> simp

theorem generateTestFile_dryRun_writes (ov : Bool) (g : FileGenInput) :
    (generateTestFile ⟨true, ov⟩ g).2 = [] := by
  unfold generateTestFile
  cases g.alreadyThere && !ov <;> cases g.contentResult <;> simp

/-! Claim theorems. -/

/-- C9: for a string-typed parameter the zero-like strategy always yields
the empty string with literal text a pair of quotes, touching no random
state, and getZeroValue agrees; no random or non-empty value set is
consulted. -/
theorem c9_zero_string_deterministic :
    ∀ rng : List Nat,
      generateStringValue rng .zero = ((.strV "", "\"\""), rng) ∧
      getZeroValue "string" = "\"\"" :=
  fun _ => ⟨rfl, rfl⟩

/-- C8: a function whose lowercased name contains "divide", having an error
result and a divisor-named parameter, gets ExpectError true from
shouldExpectError under the negative (adversarial) strategy for any inputs,
and generateErrorCases emits a division-by-zero case with ExpectError
true. -/
theorem c8_divide_negative_expects_error (f : GoFunction)
    (inputs : List (String × GoValue))
    (herr : f.hasErrorReturn = true)
    (hname : containsSubstr (goToLower f.name) "divide" = true)
    (_hparam : ∃ p ∈ f.parameters, containsSubstr (goToLower p.name) "divisor" = true) :
    shouldExpectError f .negative inputs = true ∧
    ∃ tc ∈ generateErrorCases f, tc.expectError = true := by
  constructor
  · simp [shouldExpectError, herr]
  · refine ⟨⟨"division_by_zero", "Test division by zero error", true, "division by zero"⟩, ?_, rfl⟩
    simp [generateErrorCases, hname]

/-- Witness for C8 at the SafeDivide fixture with empty inputs. -/
theorem c8_witness :
    shouldExpectError exDivideFunc .negative [] = true ∧
    ∃ tc ∈ generateErrorCases exDivideFunc, tc.expectError = true :=
  c8_divide_negative_expects_error exDivideFunc [] rfl (by decide)
    ⟨⟨"divisor", "int"⟩, by decide, by decide⟩

/-- C3 counterexample: the claim that the quality stage still runs when the
syntax stage fails is false — with failed syntax and passing later stages
ValidateTests returns before the quality stage. -/
theorem c3_counterexample :
    ¬ (∀ o : StageOutcomes, o.synOk = false →
        (validateTests o).ranBuild = false ∧ (validateTests o).ranExec = false ∧
        (validateTests o).ranQuality = true) := by
  intro h
  have := (h ⟨false, true, true⟩ rfl).2.2
  simp [validateTests] at this

/-- C3 amended: the quality stage runs exactly when syntax and build both
pass (whatever the execution verdict); when syntax fails, build, execution
and quality are all skipped. -/
theorem c3_amended (o : StageOutcomes) :
    (validateTests o).ranQuality = (o.synOk && o.buildOk) ∧
    (o.synOk = false →
      (validateTests o).ranBuild = false ∧ (validateTests o).ranExec = false ∧
      (validateTests o).ranQuality = false) := by
  rcases o with ⟨s, b, e⟩
  cases s <;> cases b <;> cases e <;> decide

/-- Witness for C3 amended at failed syntax with passing later stages. -/
theorem c3_witness :
    (validateTests ⟨false, true, true⟩).ranBuild = false ∧
    (validateTests ⟨false, true, true⟩).ranExec = false ∧
    (validateTests ⟨false, true, true⟩).ranQuality = false :=
  (c3_amended ⟨false, true, true⟩).2 rfl

/-- C2 counterexample: a function whose span contains no coverage block is
reported as (0, false), the very value reported for a function whose
contained block has zero executions — there is no distinguished unknown
state. -/
theorem c2_counterexample :
    (∀ b ∈ [exOutsideBlock], containedIn exFunc b = false) ∧
    calculateFunctionCoverage exFunc [exOutsideBlock] = (0, false) ∧
    calculateFunctionCoverage exFunc [exZeroCountContained] = (0, false) := by
  refine ⟨by decide, rfl, ?_⟩
  have h1 : containedStmts exFunc [exZeroCountContained] = 3 := by decide
  have h2 : coveredContainedStmts exFunc [exZeroCountContained] = 0 := by decide
  simp only [calculateFunctionCoverage, h1, h2]
  norm_num

/-- C2 amended: a function with no contained coverage block is assigned
coverage 0.0 with covered false, identical to the representation of a
0-percent-covered function. -/
theorem c2_amended (f : GoFunction) (blocks : List ProfileBlock)
    (h : ∀ b ∈ blocks, containedIn f b = false) :
    calculateFunctionCoverage f blocks = (0, false) := by
  unfold calculateFunctionCoverage
  rw [containedStmts_eq_zero f blocks h]
  simp

/-- Witness for C2 amended at the outside-block fixture. -/
theorem c2_witness : calculateFunctionCoverage exFunc [exOutsideBlock] = (0, false) :=
  c2_amended exFunc [exOutsideBlock] (by decide)

/-- C7: with DryRun set, test generation performs no filesystem write (for
test files and for mocks alike) and reports the same generated-test count
as the equivalent non-dry-run invocation on the same inputs. -/
theorem c7_dry_run_no_writes_same_count (ov : Bool) (inputs : List FileGenInput)
    (mocks : List (String × String)) :
    (generateTests ⟨true, ov⟩ inputs).2 = [] ∧
    writeMocks mocks true = [] ∧
    (generateTests ⟨true, ov⟩ inputs).1 = (generateTests ⟨false, ov⟩ inputs).1 := by
  refine ⟨?_, rfl, ?_⟩
  · induction inputs with
    | nil => rfl
    | cons g rest ih =>
      simp only [generateTests, generateTestFile_dryRun_writes ov g]
      rcases hr : (generateTestFile ⟨true, ov⟩ g).1 with e | og
      · simpa [generateTests, generateTestFile_dryRun_writes ov g, hr] using ih
      · cases og <;> simpa [generateTests, generateTestFile_dryRun_writes ov g, hr] using ih
  · induction inputs with
    | nil => rfl
    | cons g rest ih =>
      have hfst := generateTestFile_fst_dryRun_indep true false ov g
      simp only [generateTests, ← hfst]
      rcases hr : (generateTestFile ⟨true, ov⟩ g).1 with e | og
      · simpa using ih
      · cases og <;> simpa using ih

/-- C5: for a function with at least one contained block, over blocks that
pass validateBlock (as every block of a profile accepted by the analysis
engine does): all contained blocks executed gives coverage 100.0 and
covered true; all contained blocks unexecuted gives coverage 0.0 and
covered false. -/
theorem c5_function_coverage (f : GoFunction) (blocks : List ProfileBlock)
    (hval : ∀ b ∈ blocks, validateBlock b = true)
    (hex : ∃ b ∈ blocks, containedIn f b = true) :
    ((∀ b ∈ blocks, containedIn f b = true → b.count ≠ 0) →
      calculateFunctionCoverage f blocks = (100, true)) ∧
    ((∀ b ∈ blocks, containedIn f b = true → b.count = 0) →
      calculateFunctionCoverage f blocks = (0, false)) := by
  have hpos : ∀ b ∈ blocks, containedIn f b = true → 0 < b.numStmts :=
    fun b hb _ => (validateBlock_stmts_count (hval b hb)).1
  have htot : 0 < containedStmts f blocks := containedStmts_pos f blocks hpos hex
  constructor
  · intro hall
    have hcnt : ∀ b ∈ blocks, containedIn f b = true → 0 < b.count := by
      intro b hb hc
      have h0 := (validateBlock_stmts_count (hval b hb)).2
      have h1 := hall b hb hc
      omega
    have hcov : coveredContainedStmts f blocks = containedStmts f blocks :=
      coveredContained_eq_total f blocks hcnt
    have hq : ((containedStmts f blocks : Int) : ℚ) ≠ 0 :=
      Int.cast_ne_zero.mpr htot.ne'
    simp only [calculateFunctionCoverage, hcov, if_neg htot.ne']
    rw [div_self hq, one_mul]
    simp [htot]
  · intro hzero
    have hcov0 : coveredContainedStmts f blocks = 0 :=
      coveredContained_eq_zero f blocks hzero
    simp only [calculateFunctionCoverage, hcov0, if_neg htot.ne']
    norm_num

/-- Witness for C5 at a validated contained executed block. -/
theorem c5_witness : calculateFunctionCoverage exFunc [exContainedCovered] = (100, true) :=
  (c5_function_coverage exFunc [exContainedCovered] (by decide)
    ⟨exContainedCovered, by decide, by decide⟩).1 (by decide)

/-- C4 counterexample: the parsed profile reports exactly one block of 5
statements whose basename matches the model file, yet the file's
CoveredLines + UncoveredLines total is 10 — the block enters the filename
entry twice (once from the bare-filename variant, once from the last
stripped-segment suffix), so it is double counted. -/
theorem c4_counterexample :
    matchBlocks [exB1] exFile.path = [exB1, exB1] ∧
    (applyCoverageToFile [exB1] exFile).coveredLines +
      (applyCoverageToFile [exB1] exFile).uncoveredLines = 10 ∧
    profileStmts [exB1] = 5 := by decide

/-- C4 amended: for a matched file, CoveredLines + UncoveredLines equals the
statement-count sum over the multiset of blocks stored under the first
matching variant — in which a profile block occurs once per occurrence of
that variant among its own path variants, so a slash-containing reported
path matched through its bare filename is counted twice, and blocks of
other reported paths sharing the variant are pooled in. -/
theorem c4_amended (file : GoFile) (profileBlocks : List ProfileBlock)
    (h : ¬ matchBlocks profileBlocks file.path = []) :
    (applyCoverageToFile profileBlocks file).coveredLines +
      (applyCoverageToFile profileBlocks file).uncoveredLines =
      profileStmts (matchBlocks profileBlocks file.path) := by
  simp only [applyCoverageToFile, calculateFileCoverage, if_neg h]
  rw [blockStmts_convert]
  omega

/-- Witness for C4 amended at the double-counting fixture. -/
theorem c4_witness :
    (applyCoverageToFile [exB1] exFile).coveredLines +
      (applyCoverageToFile [exB1] exFile).uncoveredLines =
      profileStmts (matchBlocks [exB1] exFile.path) :=
  c4_amended exFile [exB1] (by decide)

/-- C1 counterexample: the block map holds entries under both the longer
suffix sub/file.go of the model path a/sub/file.go and its bare filename
file.go, yet the probe matches the filename entry: the bare filename is
probed before the stripped-segment suffixes, so longest-suffix preference
fails whenever the longer suffix is not the full model path itself. -/
theorem c1_counterexample :
    ¬ (∀ (blocks : List ProfileBlock) (path s : String),
        s ∈ generatePathVariants path → s ≠ filepathBase path →
        blocksForKey blocks s ≠ [] →
        blocksForKey blocks (filepathBase path) ≠ [] →
        firstMatchingVariant blocks path ≠ some (filepathBase path)) := by
  intro h
  exact h [exB1, exB2] "a/sub/file.go" "sub/file.go" (by decide) (by decide) (by decide)
    (by decide) (by decide)

/-- C1 amended: matching takes the first variant, in generatePathVariants
order (the path itself, then the bare filename, then the
stripped-segment suffixes), whose block-map entry is nonempty; every
earlier variant has no entry.  The cited pair — profile key pkg/sub/file.go
against model path sub/file.go — does match via the sub/file.go variant
(the model path itself, its longest suffix), not via filename-only. -/
theorem c1_amended :
    (∀ (blocks : List ProfileBlock) (path v : String),
      firstMatchingVariant blocks path = some v →
      ∃ l1 l2, generatePathVariants path = l1 ++ v :: l2 ∧
        blocksForKey blocks v ≠ [] ∧
        ∀ w ∈ l1, blocksForKey blocks w = []) ∧
    firstMatchingVariant [exB1] "sub/file.go" = some "sub/file.go" := by
  constructor
  · intro blocks path v h
    obtain ⟨l1, l2, hsplit, hv, hall⟩ := find?_split _ _ _ h
    refine ⟨l1, l2, hsplit, ?_, ?_⟩
    · simpa using hv
    · intro w hw
      simpa using hall w hw
  · decide

/-- Witness for C1 amended at the cited pair. -/
theorem c1_witness :
    ∃ l1 l2, generatePathVariants "sub/file.go" = l1 ++ "sub/file.go" :: l2 ∧
      blocksForKey [exB1] "sub/file.go" ≠ [] ∧
      ∀ w ∈ l1, blocksForKey [exB1] w = [] :=
  c1_amended.1 [exB1] "sub/file.go" "sub/file.go" (by decide)

/-- C10: the UncoveredFunctions list built by buildAnalysisResult holds
exactly the functions of the analyzed packages with IsTestable true and
IsCovered false, and is sorted by complexity in non-increasing order. -/
theorem c10_uncovered_functions (packages : List GoPackage) :
    (∀ f : GoFunction,
      f ∈ buildUncoveredFunctions packages ↔
        (∃ pkg ∈ packages, ∃ file ∈ pkg.files, f ∈ file.functions) ∧
        f.isTestable = true ∧ f.isCovered = false) ∧
    List.Sorted complexityGe (buildUncoveredFunctions packages) := by
  constructor
  · intro f
    rw [buildUncoveredFunctions, sortByComplexityDesc,
      (List.perm_insertionSort complexityGe (collectUncovered packages)).mem_iff]
    simp only [collectUncovered, List.mem_filter, List.mem_flatMap,
      Bool.and_eq_true, Bool.not_eq_true']
    constructor
    · rintro ⟨⟨file, ⟨pkg, hpkg, hfile⟩, hf⟩, hT, hC⟩
      exact ⟨⟨pkg, hpkg, file, hfile, hf⟩, hT, hC⟩
    · rintro ⟨⟨pkg, hpkg, file, hfile, hf⟩, hT, hC⟩
      exact ⟨⟨file, ⟨pkg, hpkg, hfile⟩, hf⟩, hT, hC⟩
  · exact List.sorted_insertionSort complexityGe (collectUncovered packages)

/-- Witness for C10 at a two-function package. -/
theorem c10_witness :
    ((∃ pkg ∈ [exPkg], ∃ file ∈ pkg.files, exUncov ∈ file.functions) ∧
      exUncov.isTestable = true ∧ exUncov.isCovered = false) ∧
    List.Sorted complexityGe (buildUncoveredFunctions [exPkg]) :=
  ⟨((c10_uncovered_functions [exPkg]).1 exUncov).mp (by decide),
   (c10_uncovered_functions [exPkg]).2⟩

theorem exceptMap_ok_iff {ε α β : Type} (f : α → β) (e : Except ε α) (b : β) :
    e.map f = Except.ok b ↔ ∃ a, e = Except.ok a ∧ b = f a := by
  cases e <;> simp [Except.map, eq_comm]

theorem exceptMap_error_iff {ε α β : Type} (f : α → β) (e : Except ε α) (n : ε) :
    e.map f = Except.error n ↔ e = Except.error n := by
  cases e <;> simp [Except.map]

theorem parseProfileAux_ok_iff :
    ∀ (lines : List String) (mode : String) (blocks : List ProfileBlock) (k : Nat),
      (∃ r, parseProfileAux mode blocks k lines = Except.ok r) ↔ linesOk k lines := by
  intro lines
  induction lines with
  | nil =>
    intro mode blocks k
    simp [parseProfileAux, linesOk]
  | cons raw rest ih =>
    intro mode blocks k
    simp only [parseProfileAux, linesOk]
    by_cases h1 : (k + 1 = 1 ∧ goStartsWith (goTrim raw) "mode: " = true)
    · rw [if_pos h1, ih]
      have ha : activeLine (k + 1) raw = false := by simp [activeLine, h1.1, h1.2]
      simp [ha]
    · rw [if_neg h1]
      by_cases h2 : (goTrim raw = "" ∨ goStartsWith (goTrim raw) "#" = true)
      · rw [if_pos h2, ih]
        have ha : activeLine (k + 1) raw = false := by simp [activeLine, h2]
        simp [ha]
      · rw [if_neg h2]
        have ha : activeLine (k + 1) raw = true := by
          simp only [activeLine, Bool.and_eq_true, Bool.not_eq_true', decide_eq_false_iff_not]
          exact ⟨h1, h2⟩
        rcases hp : parseProfileLine (goTrim raw) with _ | b
        · simp [ha]
        · simp [ha, ih]

theorem parseProfileAux_error :
    ∀ (lines : List String) (mode : String) (blocks : List ProfileBlock) (k n : Nat),
      parseProfileAux mode blocks k lines = Except.error n →
      k + 1 ≤ n ∧ n ≤ k + lines.length ∧
      activeLine n (lines.getD (n - 1 - k) "") = true ∧
      parseProfileLine (goTrim (lines.getD (n - 1 - k) "")) = none := by
  intro lines
  induction lines with
  | nil =>
    intro mode blocks k n h
    simp [parseProfileAux] at h
  | cons raw rest ih =>
    intro mode blocks k n h
    simp only [parseProfileAux] at h
    by_cases h1 : (k + 1 = 1 ∧ goStartsWith (goTrim raw) "mode: " = true)
    · rw [if_pos h1] at h
      obtain ⟨hlo, hhi, hact, hparse⟩ := ih _ _ _ _ h
      have hidx : n - 1 - k = (n - 1 - (k + 1)) + 1 := by omega
      refine ⟨by omega, ?_, ?_, ?_⟩
      · simp only [List.length_cons]; omega
      · rw [hidx, List.getD_cons_succ]; exact hact
      · rw [hidx, List.getD_cons_succ]; exact hparse
    · rw [if_neg h1] at h
      by_cases h2 : (goTrim raw = "" ∨ goStartsWith (goTrim raw) "#" = true)
      · rw [if_pos h2] at h
        obtain ⟨hlo, hhi, hact, hparse⟩ := ih _ _ _ _ h
        have hidx : n - 1 - k = (n - 1 - (k + 1)) + 1 := by omega
        refine ⟨by omega, ?_, ?_, ?_⟩
        · simp only [List.length_cons]; omega
        · rw [hidx, List.getD_cons_succ]; exact hact
        · rw [hidx, List.getD_cons_succ]; exact hparse
      · rw [if_neg h2] at h
        rcases hp : parseProfileLine (goTrim raw) with _ | b
        · rw [hp] at h
          have hn : n = k + 1 := by
            injection h with h'
            omega
          subst hn
          have hidx : k + 1 - 1 - k = 0 := by omega
          rw [hidx, List.getD_cons_zero]
          refine ⟨le_refl _, by simp only [List.length_cons]; omega, ?_, hp⟩
          simp only [activeLine, Bool.and_eq_true, Bool.not_eq_true', decide_eq_false_iff_not]
          exact ⟨h1, h2⟩
        · rw [hp] at h
          obtain ⟨hlo, hhi, hact, hparse⟩ := ih _ _ _ _ h
          have hidx : n - 1 - k = (n - 1 - (k + 1)) + 1 := by omega
          refine ⟨by omega, ?_, ?_, ?_⟩
          · simp only [List.length_cons]; omega
          · rw [hidx, List.getD_cons_succ]; exact hact
          · rw [hidx, List.getD_cons_succ]; exact hparse

/-- C6 counterexample: the claim that every physical line after the mode
line must carry exactly three whitespace-separated fields is false — a
blank line after the mode line is silently skipped and the parse still
succeeds. -/
theorem c6_counterexample :
    ¬ (∀ lines : List String, (∃ p, parseProfile lines = Except.ok p) →
        ∀ raw ∈ lines.drop 1, (goFields (goTrim raw)).length = 3) := by
  intro h
  have h3 := h ["mode: set", "", "f.go:1.1,2.2 1 1"]
    ⟨⟨"set", [⟨"f.go", 1, 1, 2, 2, 1, 1⟩]⟩, rfl⟩ "" (by decide)
  exact absurd h3 (by decide)

/-- C6 amended: ParseProfile succeeds exactly when every active line (one
that is not the line-1 mode header, not blank after trimming and not a '#'
comment) parses as a coverage block; a malformed active line fails the
whole parse, and the reported error is the 1-based physical number of a
malformed active line. -/
theorem c6_amended (lines : List String) :
    ((∃ p, parseProfile lines = Except.ok p) ↔ linesOk 0 lines) ∧
    (∀ n, parseProfile lines = Except.error n →
      1 ≤ n ∧ n ≤ lines.length ∧
      activeLine n (lines.getD (n - 1) "") = true ∧
      parseProfileLine (goTrim (lines.getD (n - 1) "")) = none) := by
  constructor
  · rw [← parseProfileAux_ok_iff lines "" [] 0]
    unfold parseProfile
    constructor
    · rintro ⟨p, hp⟩
      rcases (exceptMap_ok_iff _ _ _).mp hp with ⟨a, ha, _⟩
      exact ⟨a, ha⟩
    · rintro ⟨r, hr⟩
      exact ⟨⟨r.1, r.2⟩, by rw [hr]; rfl⟩
  · intro n h
    unfold parseProfile at h
    have h' := (exceptMap_error_iff _ _ _).mp h
    have hmain := parseProfileAux_error lines "" [] 0 n h'
    simpa using hmain

/-- Witness for C6 amended: a one-field line after the mode header fails the
parse with its line number 2. -/
theorem c6_witness :
    1 ≤ 2 ∧ 2 ≤ (["mode: set", "f.go:bad"] : List String).length ∧
    activeLine 2 ((["mode: set", "f.go:bad"] : List String).getD 1 "") = true ∧
    parseProfileLine (goTrim ((["mode: set", "f.go:bad"] : List String).getD 1 "")) = none :=
  (c6_amended ["mode: set", "f.go:bad"]).2 2 rfl

end Beck
